import Mathlib

/-!
Verification of the onion-transport address codec and transport logic.

The definitions below are a shallow embedding of the Go sources of the
go-onion-transport repository (the current-generation files: the
`torOnion` package with `IsValidOnionMultiAddr`, `OnionTransport.Listen`,
`OnionTransport.Dial`, `loadKeys`, `NewOnionTransport`, and the
`OnionListener` / `OnionConn` wrappers).

Modelling conventions:
- A multiaddress is a list of components, each a protocol name with its
  string value (mirroring what `a.Protocols()` and `a.ValueForProtocol`
  expose of the go-multiaddr library).
- Strings are manipulated as `List Char`; Go byte-level operations on the
  ASCII data handled here coincide with the character-level model.
- Machine integers are `Int`/`Nat`; the Go conversion `uint16(port)` is
  `(port % 65536).toNat` (Go defines conversion to an unsigned type as
  reduction modulo 2^16).
- External collaborators (the bulb control connection, the SOCKS dialer,
  `manet.ToNetAddr`, `pkcs1.OnionAddr`, `pem.Decode`,
  `pkcs1.DecodePrivateKeyDER`, the filesystem walk) are oracle functions
  supplied in environment records; theorems quantify over them.
- Fallible Go code returns `Except`; code that can also crash (nil
  dereference, index out of range) returns `GoOutcome`, which has a
  distinct crash constructor.
-/

/-- Outcome of running a piece of Go code: a value, a returned error, or a
run-time crash (nil-pointer dereference, index out of range). -/
inductive GoOutcome (α : Type) where
  | ok (a : α)
  | error (msg : String)
  | crash (msg : String)
deriving DecidableEq

/-- Character-level model of Go `strings.Split(s, sep)` for a single-character
separator: `splitOnChar ':' s` cuts `s` at every occurrence of the separator,
and the empty string splits into `[[]]`, exactly as Go returns `[""]`. -/
def splitOnChar (sep : Char) : List Char → List (List Char)
  | [] => [[]]
  | c :: rest =>
    if c = sep then [] :: splitOnChar sep rest
    else
      match splitOnChar sep rest with
      | [] => [[c]]
      | g :: gs => (c :: g) :: gs

/-- Model of Go `strings.ToUpper` restricted to the ASCII range (characters
outside a-z are left unchanged; no character relevant to the base32 alphabet
is produced from a non-ASCII character in a way that changes any verdict
proved here). -/
def toUpperL (s : List Char) : List Char :=
  s.map Char.toUpper

/-- Go `strings.HasSuffix`. -/
def hasSuffix (s suffix : String) : Bool :=
  List.isSuffixOf suffix.data s.data

/-- Go `filepath.Base` for the slash-separated file paths produced by
`filepath.Walk` (no trailing slash): the last path component. -/
def baseName (p : String) : String :=
  ⟨(splitOnChar '/' p.data).getLastD []⟩

/-- Helper for `removeFirst`: delete the first occurrence of `pat`. -/
def removeFirstL (pat : List Char) : List Char → List Char
  | [] => []
  | c :: rest =>
    if List.isPrefixOf pat (c :: rest) then (c :: rest).drop pat.length
    else c :: removeFirstL pat rest

/-- Go `strings.Replace(s, pat, "", 1)`: remove the first occurrence of
`pat` from `s` (for the non-empty patterns used by the source). -/
def removeFirst (s pat : String) : String :=
  ⟨removeFirstL pat.data s.data⟩

/-- Decode map of Go `base32.StdEncoding`: A-Z are 0-25 and 2-7 are 26-31;
every other character (in particular the padding character) is invalid. -/
def base32DecChar (c : Char) : Option Nat :=
  if 'A'.toNat ≤ c.toNat ∧ c.toNat ≤ 'Z'.toNat then some (c.toNat - 'A'.toNat)
  else if '2'.toNat ≤ c.toNat ∧ c.toNat ≤ '7'.toNat then some (c.toNat - '2'.toNat + 26)
  else none

/-- One 8-character quantum of Go `base32.StdEncoding.decode`. The fuel
counts the characters still to be consumed in this quantum, so the current
Go loop index is `j = 8 - fuel`. Returns `none` on a decode error, and
otherwise the remaining input together with the `end` flag that Go sets
when valid padding terminates the data. Mirrors the Go checks: padding is
only recognised at index at least 2 with fewer than 8 characters remaining,
there must be at least `7 - j` further characters which must all be
padding, and `dlen` values 1, 3 and 6 are rejected; running out of input
mid-quantum is an error because the standard encoding requires padding. -/
def decodeQuantum : Nat → List Char → Option (List Char × Bool)
  | 0, src => some (src, false)
  | _ + 1, [] => none
  | f + 1, c :: rest =>
    if c = '=' ∧ 2 ≤ 8 - (f + 1) ∧ rest.length < 8 then
      (if 7 ≤ rest.length + (8 - (f + 1)) ∧
          (rest.take (7 - (8 - (f + 1)))).all (fun d => d = '=') ∧
          ¬(8 - (f + 1) = 3 ∨ 8 - (f + 1) = 6) then
        some ([], true)
      else none)
    else
      match base32DecChar c with
      | some _ => decodeQuantum f rest
      | none => none

/-- Outer loop of Go `base32.StdEncoding.decode`: process quanta until the
input is exhausted or a padded quantum ends the data. The fuel is an upper
bound on the number of quanta; each full quantum consumes 8 characters, so
the input length is always sufficient fuel. -/
def decodeBlocksFuel : Nat → List Char → Bool
  | _, [] => true
  | 0, _ :: _ => false
  | f + 1, c :: rest =>
    match decodeQuantum 8 (c :: rest) with
    | none => false
    | some (_, true) => true
    | some (rest2, false) => decodeBlocksFuel f rest2

/-- Characters Go's base32 decoder strips before decoding. -/
def stripNewlines (s : List Char) : List Char :=
  s.filter (fun c => ¬(c = '\r' ∨ c = '\n'))

/-- Success predicate of Go `base32.StdEncoding.DecodeString`: newlines are
stripped, then the input is decoded quantum by quantum. -/
def base32DecodeOk (s : List Char) : Bool :=
  decodeBlocksFuel (stripNewlines s).length (stripNewlines s)

/-- Go `unicode.IsDigit` restricted to ASCII, as used by `strconv.Atoi`. -/
def isDigitCh (c : Char) : Bool :=
  '0'.toNat ≤ c.toNat ∧ c.toNat ≤ '9'.toNat

/-- Numeric value of a digit string. -/
def digitsToNat (l : List Char) : Nat :=
  l.foldl (fun acc d => acc * 10 + (d.toNat - '0'.toNat)) 0

/-- Model of Go `strconv.Atoi` (equivalently `ParseInt(s, 10, 64)`): an
optional sign followed by at least one decimal digit, with failure on any
other character, on the empty digit string, and on overflow of the 64-bit
signed range. -/
def goAtoi (s : List Char) : Option Int :=
  match s with
  | [] => none
  | c :: rest =>
    let neg : Bool := c = '-'
    let digits : List Char := if c = '-' ∨ c = '+' then rest else c :: rest
    if digits.isEmpty then none
    else if digits.all isDigitCh then
      (let n : Nat := digitsToNat digits
       if neg then
         if (n : Int) ≤ 2 ^ 63 then some (-(n : Int)) else none
       else
         if (n : Int) < 2 ^ 63 then some (n : Int) else none)
    else none

/-- One component of a multiaddress: a protocol name and its value, as the
go-multiaddr library presents them. -/
structure MAComponent where
  proto : String
  value : String
deriving DecidableEq

/-- A multiaddress is the list of its components. -/
abbrev Multiaddr := List MAComponent

/-- Go `a.Protocols()`: the protocol name of each component in order. -/
def maProtocols (a : Multiaddr) : List String :=
  a.map (fun c => c.proto)

/-- Go `a.ValueForProtocol(p)`: the value of the first component carrying
protocol `p`, or an error when no component does. -/
def valueForProtocol (a : Multiaddr) (p : String) : Except String String :=
  match a with
  | [] => .error ("protocol not found")
  | c :: rest => if c.proto = p then .ok c.value else valueForProtocol rest p

/-- Checks `IsValidOnionMultiAddr` performs on the onion component's
value: split on the colon into exactly two segments; the first segment is
16 characters and upper-cases to a string accepted by the standard base32
decoder; the second parses with `Atoi` to an integer that is neither at
least 65536 nor below 1. -/
def onionValueOk (v : String) : Bool :=
  if (splitOnChar ':' v.data).length ≠ 2 then false
  else if ((splitOnChar ':' v.data).getD 0 []).length ≠ 16 then false
  else if ¬base32DecodeOk (toUpperL ((splitOnChar ':' v.data).getD 0 [])) then false
  else
    match goAtoi ((splitOnChar ':' v.data).getD 1 []) with
    | none => false
    | some i => if 65536 ≤ i ∨ i < 1 then false else true

/-- Shallow embedding of `IsValidOnionMultiAddr` (the current-generation
version): exactly one protocol, named "onion"; then the checks of
`onionValueOk` on the value `ValueForProtocol` extracts. -/
def IsValidOnionMultiAddr (a : Multiaddr) : Bool :=
  if (maProtocols a).length ≠ 1 then false
  else if (maProtocols a).getD 0 "" ≠ "onion" then false
  else
    match valueForProtocol a "onion" with
    | .error _ => false
    | .ok addr => onionValueOk addr

/-- The value-level validity shape as the specification words it, for
comparison with the source-derived `onionValueOk`: the value splits on the
colon into exactly two segments, the first segment has length exactly 16
and decodes as case-insensitive base32, and the second parses as an
integer between 1 and 65535 inclusive. -/
def specValueShape (v : String) : Bool :=
  match splitOnChar ':' v.data with
  | [host, portSeg] =>
    decide (host.length = 16) && base32DecodeOk (toUpperL host) &&
    (match goAtoi portSeg with
     | some i => decide (1 ≤ i) && decide (i ≤ 65535)
     | none => false)
  | _ => false

/-- The address-level validity shape as the specification words it: the
address uses the onion scheme (a single onion component) and its value has
the shape of `specValueShape`. -/
def specValidOnionShape (a : Multiaddr) : Bool :=
  match a with
  | [c] => decide (c.proto = "onion") && specValueShape c.value
  | _ => false

/-- Private key material decoded by `pkcs1.DecodePrivateKeyDER`, kept
abstract: only its identity matters to the transport logic. -/
structure RSAPrivateKey where
  keyId : Nat
deriving DecidableEq

/-- State of an `OnionTransport` relevant to the verified operations: the
key map loaded by `loadKeys`, from onion name to private key. The control
connection, proxy auth and upgrader are external handles modelled by the
environment records of each operation. -/
structure OnionTransport where
  keys : List (String × RSAPrivateKey)
deriving DecidableEq

/-- A command issued on the Tor control session: `t.controlConn.Listener
(uint16(port), onionKey)`, the create-hidden-service call. -/
inductive ControlCmd where
  | listener (port : Nat) (key : RSAPrivateKey)
deriving DecidableEq

/-- The `OnionListener` record as `Listen` constructs it: virtual port
(already converted with `uint16`), resolved key, the multiaddress listened
on, and the raw listener handle obtained from the control session. -/
structure OnionListener where
  port : Nat
  key : RSAPrivateKey
  laddr : Multiaddr
  listener : Nat
deriving DecidableEq

/-- `OnionListener.Multiaddr` returns the local multiaddr the listener was
created with. -/
def OnionListener.Multiaddr (l : OnionListener) : Multiaddr :=
  l.laddr

/-- External collaborators used by `Listen`: `pkcs1.OnionAddr` applied to
the public half of a key, and the control session's create-hidden-service
call `t.controlConn.Listener`, returning a raw listener handle. -/
structure ListenEnv where
  onionAddrOf : RSAPrivateKey → Except String String
  ctrlListener : Nat → RSAPrivateKey → Except String Nat

/-- The string `Listen` splits: the onion component's value, with the
error of `laddr.ValueForProtocol(ma.P_ONION)` ignored by the source (the
`if err != nil` block is empty), which leaves the zero value "". -/
def listenNetaddr (laddr : Multiaddr) : String :=
  match valueForProtocol laddr "onion" with
  | .ok v => v
  | .error _ => ""

/-- The colon-separated segments `Listen` computes from the address. -/
def listenSegs (laddr : Multiaddr) : List (List Char) :=
  splitOnChar ':' (listenNetaddr laddr).data

/-- The host segment `addr[0]` used as key-map index. -/
def listenHost (laddr : Multiaddr) : String :=
  ⟨(listenSegs laddr).getD 0 []⟩

/-- The port segment `addr[1]` passed to `strconv.Atoi`. -/
def listenPortSeg (laddr : Multiaddr) : List Char :=
  (listenSegs laddr).getD 1 []

/-- Shallow embedding of `OnionTransport.Listen`. Mirrors the source:
split the onion value on the colon and fail when there are not exactly two
segments; `Atoi` the port segment and fail when it does not parse (no
range check); look the host up in the key map and fail when absent; derive
the onion identifier from the key and fail when that fails; finally issue
the create-hidden-service command with the port converted by `uint16`,
that is reduced modulo 2^16. The result pairs the returned value with the
trace of control-session commands issued. The successful value is the
`OnionListener` record before the hand-off to the external upgrader. -/
def OnionTransport.Listen (t : OnionTransport) (env : ListenEnv) (laddr : Multiaddr) :
    Except String OnionListener × List ControlCmd :=
  if (listenSegs laddr).length ≠ 2 then (.error ("failed to parse onion address"), [])
  else
    match goAtoi (listenPortSeg laddr) with
    | none => (.error ("failed to convert onion service port to int"), [])
    | some port =>
      match List.lookup (listenHost laddr) t.keys with
      | none => (.error ("missing onion service key material for " ++ listenHost laddr), [])
      | some onionKey =>
        match env.onionAddrOf onionKey with
        | .error e => (.error ("Failed to derive onion ID: " ++ e), [])
        | .ok _ =>
          match env.ctrlListener (Int.toNat (port % 65536)) onionKey with
          | .error e => (.error e, [ControlCmd.listener (Int.toNat (port % 65536)) onionKey])
          | .ok raw =>
            (.ok { port := Int.toNat (port % 65536), key := onionKey,
                   laddr := laddr, listener := raw },
             [ControlCmd.listener (Int.toNat (port % 65536)) onionKey])

/-- The `OnionConn` record: embedded raw connection handle, optional local
and remote multiaddress pointers (Go nil pointers are `none`). -/
structure OnionConn where
  rawConn : Nat
  laddr : Option Multiaddr
  raddr : Option Multiaddr
deriving DecidableEq

/-- `OnionConn.LocalMultiaddr`: the source explicitly returns nil when the
local pointer is nil (outbound connections), else dereferences it. -/
def OnionConn.LocalMultiaddr (c : OnionConn) : Option Multiaddr :=
  match c.laddr with
  | none => none
  | some a => some a

/-- `OnionConn.RemoteMultiaddr` dereferences the remote pointer without a
nil check, so a nil remote pointer crashes. -/
def OnionConn.RemoteMultiaddr (c : OnionConn) : GoOutcome Multiaddr :=
  match c.raddr with
  | none => .crash ("invalid memory address or nil pointer dereference")
  | some a => .ok a

/-- External collaborators used by `Dial`: creation of the SOCKS dialer
from the control connection, `manet.ToNetAddr` (returning the pair
`(Network(), String())`), and the raw proxy dial. -/
structure DialEnv where
  mkDialer : Except String Unit
  toNetAddr : Multiaddr → Except String (String × String)
  rawDial : String → String → Except String Nat

/-- Shallow embedding of `OnionTransport.Dial`. Mirrors the source: obtain
the dialer; try `manet.ToNetAddr`; when it fails, fall back to the onion
component's value and dial `split[0] + ".onion:" + split[1]` over tcp4
(crashing on the unchecked `split[1]` index when the value has no colon,
and on the nil `netaddr` when the onion value is empty); the `OnionConn`
is built with the remote address and no local address. The successful
value is the connection before the hand-off to the external upgrader. -/
def OnionTransport.Dial (env : DialEnv) (raddr : Multiaddr) : GoOutcome OnionConn :=
  match env.mkDialer with
  | .error e => .error e
  | .ok _ =>
    match env.toNetAddr raddr with
    | .ok (netw, netstr) =>
      (match env.rawDial netw netstr with
       | .error e => .error e
       | .ok h => .ok { rawConn := h, laddr := none, raddr := some raddr })
    | .error _ =>
      match valueForProtocol raddr "onion" with
      | .error e => .error e
      | .ok onionAddress =>
        if onionAddress = "" then
          .crash ("invalid memory address or nil pointer dereference")
        else
          if (splitOnChar ':' onionAddress.data).length < 2 then .crash ("index out of range")
          else
            match env.rawDial ("tcp4")
                ((⟨(splitOnChar ':' onionAddress.data).getD 0 []⟩ : String) ++ ".onion:" ++
                  (⟨(splitOnChar ':' onionAddress.data).getD 1 []⟩ : String)) with
            | .error e => .error e
            | .ok h => .ok { rawConn := h, laddr := none, raddr := some raddr }

/-- A file visited by the `filepath.Walk` of `loadKeys`: its path and its
contents as read by `ioutil.ReadFile`. -/
structure KeyFile where
  path : String
  content : String
deriving DecidableEq

/-- External decoders used by `loadKeys`: `pem.Decode` (returning the
block bytes, or `none` when the input is not PEM, in which case the Go
block pointer is nil), and `pkcs1.DecodePrivateKeyDER`. -/
structure LoadEnv where
  pemDecode : String → Option String
  derDecode : String → Except String RSAPrivateKey

/-- Walk loop of `loadKeys` over the visited files. For a file whose path
ends in ".onion_key": PEM-decode the contents — the source ignores the nil
result of `pem.Decode` and dereferences `block.Bytes`, so a non-PEM file
crashes; DER-decode the block and abort the walk with the error on
failure; otherwise insert the key under the file's base name with the
first ".onion_key" removed (map insertion is modelled by consing, with
`List.lookup` finding the most recent insertion first). -/
def loadKeysGo (env : LoadEnv) :
    List KeyFile → List (String × RSAPrivateKey) → GoOutcome (List (String × RSAPrivateKey))
  | [], keys => .ok keys
  | f :: rest, keys =>
    if hasSuffix f.path (".onion_key") then
      match env.pemDecode f.content with
      | none => .crash ("invalid memory address or nil pointer dereference")
      | some der =>
        match env.derDecode der with
        | .error e => .error e
        | .ok privKey =>
          loadKeysGo env rest ((removeFirst (baseName f.path) (".onion_key"), privKey) :: keys)
    else loadKeysGo env rest keys

/-- Shallow embedding of `OnionTransport.loadKeys`: fold the walk over the
files under the keys directory starting from the empty map. On a walk
error the Go function returns the error (the caller discards the partial
map). -/
def loadKeys (env : LoadEnv) (files : List KeyFile) : GoOutcome (List (String × RSAPrivateKey)) :=
  loadKeysGo env files []

/-- External collaborators used by `NewOnionTransport`: `bulb.Dial`,
`conn.Authenticate(controlPass)`, the key-file decoders, and the list of
files the walk visits under the keys directory. -/
structure NewTransportEnv where
  bulbDial : Except String Unit
  authenticate : Except String Unit
  loadEnv : LoadEnv
  files : List KeyFile

/-- Shallow embedding of `NewOnionTransport`: dial the control port,
authenticate (wrapping the failure), load the keys — propagating a load
failure, so no transport is returned — and otherwise return the transport
with the loaded key map. -/
def NewOnionTransport (env : NewTransportEnv) : GoOutcome OnionTransport :=
  match env.bulbDial with
  | .error e => .error e
  | .ok _ =>
    match env.authenticate with
    | .error e => .error ("Authentication failed: " ++ e)
    | .ok _ =>
      match loadKeys env.loadEnv env.files with
      | .crash e => .crash e
      | .error e => .error e
      | .ok keys => .ok { keys := keys }

/-! Concrete fixtures used by the witnesses and counterexamples. -/

/-- A concrete private key handle. -/
def k0 : RSAPrivateKey := { keyId := 0 }

/-- A transport whose key map holds the key for host "erhkddypoy6qml6h". -/
def t0 : OnionTransport := { keys := [("erhkddypoy6qml6h", k0)] }

/-- A transport with an empty key map. -/
def tEmpty : OnionTransport := { keys := [] }

/-- A listen environment whose external calls all succeed. -/
def env0 : ListenEnv :=
  { onionAddrOf := fun _ => .ok ("erhkddypoy6qml6h"), ctrlListener := fun _ _ => .ok 1 }

/-- The multiaddress /onion/erhkddypoy6qml6h:4003. -/
def onionAddr4003 : Multiaddr := [{ proto := "onion", value := "erhkddypoy6qml6h:4003" }]

/-- The multiaddress /onion/erhkddypoy6qml6h:70000 (port out of range). -/
def onionAddr70000 : Multiaddr := [{ proto := "onion", value := "erhkddypoy6qml6h:70000" }]

/-- An onion multiaddress whose value has no colon. -/
def onionAddrNoColon : Multiaddr := [{ proto := "onion", value := "erhkddypoy6qml6h" }]

/-- An onion multiaddress whose port segment is not numeric. -/
def onionAddrBadPort : Multiaddr := [{ proto := "onion", value := "erhkddypoy6qml6h:80a" }]

/-- The multiaddress /ip4/0.0.0.0/tcp/4001. -/
def ip4Addr : Multiaddr := [{ proto := "ip4", value := "0.0.0.0" }, { proto := "tcp", value := "4001" }]

/-! Helper lemmas shared by the claim theorems. -/

/-- The source's value check agrees with the specification's wording of
the value shape. -/
theorem onionValueOk_eq_specValueShape (v : String) : onionValueOk v = specValueShape v := by
  unfold onionValueOk specValueShape
  rcases hs : splitOnChar ':' v.data with _ | ⟨x, _ | ⟨y, _ | ⟨z, zs⟩⟩⟩
  · simp
  · simp
  · simp only [List.length_cons, List.length_nil, List.getD, List.getElem?_cons_zero,
      List.getElem?_cons_succ, Option.getD_some]
    norm_num
    by_cases hl : x.length = 16
    · by_cases hb : base32DecodeOk (toUpperL x) = true
      · rcases hA : goAtoi y with _ | i
        · simp [hl, hb, hA]
        · simp [hl, hb, hA]
          by_cases h1 : 1 ≤ i
          · by_cases h2 : i ≤ 65535
            · have hx : ¬ 65536 ≤ i := by omega
              have hy : ¬ i < 1 := by omega
              simp [h1, h2, hx, hy]
            · have hx : 65536 ≤ i := by omega
              simp [h2, hx]
          · have hy : i < 1 := by omega
            simp [h1, hy]
      · simp [hl, hb]
    · simp [hl]
  · simp

/-- The source validator agrees with the specification's wording of the
whole shape. -/
theorem valid_eq_specShape (a : Multiaddr) : IsValidOnionMultiAddr a = specValidOnionShape a := by
  match a with
  | [] => rfl
  | c1 :: c2 :: rest =>
    simp [IsValidOnionMultiAddr, specValidOnionShape, maProtocols]
  | [c] =>
    by_cases hp : c.proto = "onion"
    · simp [IsValidOnionMultiAddr, specValidOnionShape, maProtocols, valueForProtocol, hp,
        onionValueOk_eq_specValueShape]
    · simp [IsValidOnionMultiAddr, specValidOnionShape, maProtocols, valueForProtocol, hp]

/-! Claim theorems. -/

/-- Claim C1: for every multiaddress, the validator returns true if and
only if the address uses the onion scheme, its value splits on the colon
into exactly two segments, the first segment has length exactly 16 and
decodes as valid base32 (case-insensitive), and the second segment parses
as an integer in the range 1 to 65535 inclusive; in particular
/onion/erhkddypoy6qml6h:4003 validates true, /ip4/0.0.0.0/tcp/4001
validates false, and an onion address with port 70000 validates false. -/
theorem C1_validate_iff :
    (∀ a : Multiaddr, IsValidOnionMultiAddr a = true ↔ specValidOnionShape a = true) ∧
    IsValidOnionMultiAddr onionAddr4003 = true ∧
    IsValidOnionMultiAddr ip4Addr = false ∧
    IsValidOnionMultiAddr onionAddr70000 = false :=
  ⟨fun a => by rw [valid_eq_specShape], by decide, by decide, by decide⟩

/-- Witness for C1 at a concrete input: the validator accepts the valid
example address, hence the address satisfies the specification shape. -/
theorem C1_validate_iff_witness : specValidOnionShape onionAddr4003 = true :=
  (C1_validate_iff.1 onionAddr4003).mp (by decide)

/-- An onion multiaddress whose value has three colon segments. -/
def onionAddrExtraSeg : Multiaddr := [{ proto := "onion", value := "erhkddypoy6qml6h:4003:9" }]

/-- A composite multiaddress with an onion component next to a TCP one. -/
def onionTcpAddr : Multiaddr :=
  [{ proto := "onion", value := "erhkddypoy6qml6h:4003" }, { proto := "tcp", value := "4001" }]

/-- Claim C7: the validator is a total function — in this embedding it is
a total `Bool`-valued function, so it cannot fail or throw — and every
deviation from the valid shape yields false rather than an error: any
address outside the specification shape validates false, including the
empty address, a wrong-scheme address, and addresses with extra
components or extra colon segments. -/
theorem C7_validate_total :
    (∀ a : Multiaddr, specValidOnionShape a = false → IsValidOnionMultiAddr a = false) ∧
    IsValidOnionMultiAddr [] = false ∧
    IsValidOnionMultiAddr onionTcpAddr = false ∧
    IsValidOnionMultiAddr onionAddrExtraSeg = false :=
  ⟨fun a h => by rw [valid_eq_specShape]; exact h, by decide, by decide, by decide⟩

/-- Witness for C7 at a concrete input: the wrong-scheme address deviates
from the valid shape and indeed validates false. -/
theorem C7_validate_total_witness :
    specValidOnionShape ip4Addr = false ∧ IsValidOnionMultiAddr ip4Addr = false :=
  ⟨by decide, C7_validate_total.1 ip4Addr (by decide)⟩

/-- Claim C10: the validator returns false for every multiaddress whose
protocol list does not consist of exactly one protocol named "onion"; in
particular a composite address containing an onion component alongside
any other component is rejected. -/
theorem C10_single_onion_protocol :
    ∀ a : Multiaddr, maProtocols a ≠ ["onion"] → IsValidOnionMultiAddr a = false := by
  intro a h
  match a with
  | [] => rfl
  | [c] =>
    have hp : c.proto ≠ "onion" := by
      intro hc
      exact h (by simp [maProtocols, hc])
    simp [IsValidOnionMultiAddr, maProtocols, hp]
  | c1 :: c2 :: rest =>
    simp [IsValidOnionMultiAddr, maProtocols]

/-- Witness for C10 at a concrete input: the composite onion+tcp address
has a protocol list other than the single onion protocol and is
rejected. -/
theorem C10_single_onion_protocol_witness :
    maProtocols onionTcpAddr ≠ ["onion"] ∧ IsValidOnionMultiAddr onionTcpAddr = false :=
  ⟨by decide, C10_single_onion_protocol onionTcpAddr (by decide)⟩

/-- Counterexample for C2 as stated: for the out-of-range port 70000 with
the host key present, `Listen` does not fail with an invalid-port error —
it succeeds and issues the create-hidden-service command, with the port
truncated to 4464 = 70000 mod 2^16. -/
theorem C2_cex :
    (OnionTransport.Listen t0 env0 onionAddr70000).2 = [ControlCmd.listener 4464 k0] ∧
    (OnionTransport.Listen t0 env0 onionAddr70000).1 =
      .ok { port := 4464, key := k0, laddr := onionAddr70000, listener := 1 } :=
  ⟨rfl, rfl⟩

/-- Claim C2 (amended): `Listen` fails with the malformed-address error
when the split into exactly two colon-separated segments fails, and with
the invalid-port error when the port segment does not parse as an integer;
a numeric port outside 1..65535 is not rejected — when the key is present
and the onion-identity derivation succeeds, the create-hidden-service
command is issued (with the port truncated modulo 2^16). -/
theorem C2_listen_errors (t : OnionTransport) (env : ListenEnv) (laddr : Multiaddr) :
    ((listenSegs laddr).length ≠ 2 →
      OnionTransport.Listen t env laddr = (.error ("failed to parse onion address"), [])) ∧
    ((listenSegs laddr).length = 2 → goAtoi (listenPortSeg laddr) = none →
      OnionTransport.Listen t env laddr =
        (.error ("failed to convert onion service port to int"), [])) ∧
    (∀ i k s, (listenSegs laddr).length = 2 →
      goAtoi (listenPortSeg laddr) = some i →
      List.lookup (listenHost laddr) t.keys = some k →
      env.onionAddrOf k = .ok s →
      (OnionTransport.Listen t env laddr).2 ≠ []) := by
  refine ⟨fun h => ?_, fun h2 hA => ?_, fun i k s h2 hA hk hd => ?_⟩
  · simp [OnionTransport.Listen, h]
  · simp [OnionTransport.Listen, h2, hA]
  · rcases hc : env.ctrlListener (Int.toNat (i % 65536)) k with e | r <;>
      simp [OnionTransport.Listen, h2, hA, hk, hd, hc]

/-- Witness for C2 (amended) at concrete inputs: a colon-less onion value
yields the malformed-address error, and a non-numeric port segment yields
the invalid-port error, both with no control-session command issued. -/
theorem C2_listen_errors_witness :
    OnionTransport.Listen t0 env0 onionAddrNoColon =
      (.error ("failed to parse onion address"), []) ∧
    OnionTransport.Listen t0 env0 onionAddrBadPort =
      (.error ("failed to convert onion service port to int"), []) :=
  ⟨(C2_listen_errors t0 env0 onionAddrNoColon).1 (by decide),
   (C2_listen_errors t0 env0 onionAddrBadPort).2.1 (by decide) (by decide)⟩

/-- Claim C3: for every address that reaches the key lookup (two-segment
split succeeded and the port parsed) whose host segment has no entry in
the transport's key map, `Listen` fails with the missing-key error and
performs no control-session call. -/
theorem C3_listen_key_not_found (t : OnionTransport) (env : ListenEnv) (laddr : Multiaddr) :
    (listenSegs laddr).length = 2 →
    ∀ i, goAtoi (listenPortSeg laddr) = some i →
    List.lookup (listenHost laddr) t.keys = none →
    OnionTransport.Listen t env laddr =
      (.error ("missing onion service key material for " ++ listenHost laddr), []) := by
  intro h2 i hA hk
  simp [OnionTransport.Listen, h2, hA, hk]

/-- Witness for C3 at a concrete input: listening on the valid example
address with an empty key map fails with the missing-key error and an
empty command trace. -/
theorem C3_listen_key_not_found_witness :
    OnionTransport.Listen tEmpty env0 onionAddr4003 =
      (.error ("missing onion service key material for " ++ listenHost onionAddr4003), []) :=
  C3_listen_key_not_found tEmpty env0 onionAddr4003 (by decide) 4003 (by decide) (by decide)

/-- Claim C8: every successful `Listen` returns a listener whose
`Multiaddr` equals the address that was passed in. -/
theorem C8_listener_multiaddr (t : OnionTransport) (env : ListenEnv) (laddr : Multiaddr)
    (l : OnionListener) :
    (OnionTransport.Listen t env laddr).1 = .ok l → OnionListener.Multiaddr l = laddr := by
  intro h
  unfold OnionTransport.Listen at h
  split at h
  · simp at h
  · split at h
    · simp at h
    · split at h
      · simp at h
      · split at h
        · simp at h
        · split at h
          · simp at h
          · simp at h
            subst h
            rfl

/-- The listener returned by the successful concrete listen. -/
def l4003 : OnionListener := { port := 4003, key := k0, laddr := onionAddr4003, listener := 1 }

/-- Witness for C8 at a concrete input: the successful listen on the
valid example address returns a listener reporting that address. -/
theorem C8_listener_multiaddr_witness : OnionListener.Multiaddr l4003 = onionAddr4003 :=
  C8_listener_multiaddr t0 env0 onionAddr4003 l4003 rfl

/-- Claim C9: whenever the port segment parses via `Atoi` to some integer
and the host key is found (and the identity derivation succeeds), `Listen`
issues the create-hidden-service command with that integer reduced modulo
2^16 — ports 0, negative, and above 65535 are not rejected at this step
but truncated. -/
theorem C9_listen_port_truncation (t : OnionTransport) (env : ListenEnv) (laddr : Multiaddr)
    (i : Int) (k : RSAPrivateKey) (s : String) :
    (listenSegs laddr).length = 2 →
    goAtoi (listenPortSeg laddr) = some i →
    List.lookup (listenHost laddr) t.keys = some k →
    env.onionAddrOf k = .ok s →
    (OnionTransport.Listen t env laddr).2 = [ControlCmd.listener (Int.toNat (i % 65536)) k] := by
  intro h2 hA hk hd
  rcases hc : env.ctrlListener (Int.toNat (i % 65536)) k with e | r <;>
    simp [OnionTransport.Listen, h2, hA, hk, hd, hc]

/-- The multiaddress /onion/erhkddypoy6qml6h:0. -/
def onionAddr0 : Multiaddr := [{ proto := "onion", value := "erhkddypoy6qml6h:0" }]

/-- The multiaddress /onion/erhkddypoy6qml6h:-1. -/
def onionAddrNeg : Multiaddr := [{ proto := "onion", value := "erhkddypoy6qml6h:-1" }]

/-- Witness for C9 at concrete inputs: port 70000 is truncated to 4464,
port 0 is passed as 0, and port -1 wraps to 65535; in each case the
command is issued rather than the port rejected. -/
theorem C9_listen_port_truncation_witness :
    (OnionTransport.Listen t0 env0 onionAddr70000).2 = [ControlCmd.listener 4464 k0] ∧
    (OnionTransport.Listen t0 env0 onionAddr0).2 = [ControlCmd.listener 0 k0] ∧
    (OnionTransport.Listen t0 env0 onionAddrNeg).2 = [ControlCmd.listener 65535 k0] :=
  ⟨(C9_listen_port_truncation t0 env0 onionAddr70000 70000 k0 "erhkddypoy6qml6h"
      (by decide) (by decide) (by decide) rfl).trans (by decide),
   (C9_listen_port_truncation t0 env0 onionAddr0 0 k0 "erhkddypoy6qml6h"
      (by decide) (by decide) (by decide) rfl).trans (by decide),
   (C9_listen_port_truncation t0 env0 onionAddrNeg (-1) k0 "erhkddypoy6qml6h"
      (by decide) (by decide) (by decide) rfl).trans (by decide)⟩

/-- Claim C4: every successful `Dial` returns a connection whose remote
multiaddress equals the dialed address and whose local multiaddress is
absent (nil) — outbound connections never advertise a local onion
address. -/
theorem C4_dial_addresses (env : DialEnv) (raddr : Multiaddr) (c : OnionConn) :
    OnionTransport.Dial env raddr = .ok c →
    OnionConn.RemoteMultiaddr c = .ok raddr ∧ OnionConn.LocalMultiaddr c = none := by
  intro h
  unfold OnionTransport.Dial at h
  split at h
  · simp at h
  · split at h
    · split at h
      · simp at h
      · simp at h
        subst h
        exact ⟨rfl, rfl⟩
    · split at h
      · simp at h
      · split at h
        · simp at h
        · split at h
          · simp at h
          · split at h
            · simp at h
            · simp at h
              subst h
              exact ⟨rfl, rfl⟩

/-- A dial environment whose external calls all succeed, with
`manet.ToNetAddr` resolving the address. -/
def envDial : DialEnv :=
  { mkDialer := .ok (),
    toNetAddr := fun _ => .ok ("onion", "erhkddypoy6qml6h:4003"),
    rawDial := fun _ _ => .ok 7 }

/-- The connection produced by the successful concrete dial. -/
def conn4003 : OnionConn := { rawConn := 7, laddr := none, raddr := some onionAddr4003 }

/-- Witness for C4 at a concrete input: a successful dial to the example
address yields a connection with that remote address and no local
address. -/
theorem C4_dial_addresses_witness :
    OnionConn.RemoteMultiaddr conn4003 = .ok onionAddr4003 ∧
    OnionConn.LocalMultiaddr conn4003 = none :=
  C4_dial_addresses envDial onionAddr4003 conn4003 rfl

/-- A load environment in which PEM decoding fails (the Go `pem.Decode`
returns a nil block). -/
def badPemEnv : LoadEnv := { pemDecode := fun _ => none, derDecode := fun _ => .ok k0 }

/-- A load environment in which PEM decoding succeeds but DER decoding of
the private key fails. -/
def badDerEnv : LoadEnv :=
  { pemDecode := fun c => some c, derDecode := fun _ => .error ("asn1: structure error") }

/-- A key file whose contents fail to decode. -/
def badKeyFile : KeyFile := { path := "keys/bad.onion_key", content := "not a pem block" }

/-- Constructor environment whose key directory holds a non-PEM file. -/
def c5PemTransportEnv : NewTransportEnv :=
  { bulbDial := .ok (), authenticate := .ok (), loadEnv := badPemEnv, files := [badKeyFile] }

/-- Constructor environment whose key directory holds a file failing DER
decoding. -/
def c5DerTransportEnv : NewTransportEnv :=
  { bulbDial := .ok (), authenticate := .ok (), loadEnv := badDerEnv, files := [badKeyFile] }

/-- Claim C5, evaluated at the failing input: a key file whose contents
are not valid PEM makes the constructor crash with a nil-pointer
dereference (the source ignores the nil result of `pem.Decode` and
dereferences `block.Bytes`) instead of returning an error as the claim
states; a file failing DER decoding does abort the load with an error, as
claimed, and in neither case is a transport or a partial key store
returned. -/
theorem C5_load_decode_failure :
    NewOnionTransport c5PemTransportEnv =
      .crash ("invalid memory address or nil pointer dereference") ∧
    NewOnionTransport c5DerTransportEnv = .error ("asn1: structure error") :=
  ⟨rfl, rfl⟩

/-- A load environment whose decoders both succeed. -/
def okLoadEnv : LoadEnv := { pemDecode := fun c => some c, derDecode := fun _ => .ok k0 }

/-- A key file named for a host that differs from the identity the key
derives to. -/
def c6KeyFile : KeyFile := { path := "keys/aaaaaaaaaaaaaaaa.onion_key", content := "pem body" }

/-- Stands for the canonical onion identity `pkcs1.OnionAddr` derives from
a key's public half — an external derivation `loadKeys` never invokes; for
the counterexample it assigns the stored key an identity different from
the file name. -/
def c6DerivedId : RSAPrivateKey → String := fun _ => "bbbbbbbbbbbbbbbb"

/-- Counterexample for C6 as stated: loading a key file inserts the key
under the file-name-derived name, not under the identity derived from the
decoded key — the store holds the entry "aaaaaaaaaaaaaaaa" and a lookup of
the key-derived identity finds nothing. -/
theorem C6_cex :
    loadKeys okLoadEnv [c6KeyFile] = .ok [("aaaaaaaaaaaaaaaa", k0)] ∧
    List.lookup (c6DerivedId k0) [("aaaaaaaaaaaaaaaa", k0)] = none ∧
    c6DerivedId k0 ≠ "aaaaaaaaaaaaaaaa" :=
  ⟨rfl, rfl, by decide⟩

/-- Claim C6 (amended): for every key file with the recognized suffix that
key loading processes, load reads the file contents, PEM- and DER-decodes
the private-key container, and inserts the key under the identity derived
from the file name — the base name with the first ".onion_key" occurrence
removed — not under an identity derived from the decoded key. -/
theorem C6_load_inserts_filename_identity (env : LoadEnv) (f : KeyFile) (der : String)
    (k : RSAPrivateKey) :
    hasSuffix f.path (".onion_key") = true →
    env.pemDecode f.content = some der →
    env.derDecode der = .ok k →
    loadKeys env [f] = .ok [(removeFirst (baseName f.path) (".onion_key"), k)] := by
  intro hs hp hd
  simp [loadKeys, loadKeysGo, hs, hp, hd]

/-- Witness for C6 (amended) at a concrete input: the file named
"aaaaaaaaaaaaaaaa.onion_key" is stored under "aaaaaaaaaaaaaaaa". -/
theorem C6_load_inserts_filename_identity_witness :
    loadKeys okLoadEnv [c6KeyFile] =
      .ok [(removeFirst (baseName c6KeyFile.path) (".onion_key"), k0)] :=
  C6_load_inserts_filename_identity okLoadEnv c6KeyFile ("pem body") k0 (by decide) rfl rfl
